import Mathlib

/-!
Verification of the pixelartsvfx backend's two core components against its
specification: the hero-image singleton invariant (routes/media.js and the
older media router variant) and the login lockout state machine (the Admin
model in routes/mail.js and the auth router).

The document store is modelled as a Lean list of records.  `updateMany`
becomes a `List.map`, `findById` / `findOne` become `List.find?`, and a
mongoose `save()` of an already-persisted document becomes replacement of
the first record with the same id (`saveExisting`); `save()` of a fresh
document appends it with a store-generated fresh id (`freshId` models
MongoDB ObjectId uniqueness).  Because the schema sets `timestamps: true`,
a save stamps `updatedAt` with the current time, which each operation
receives as an explicit `now : Nat` (milliseconds).  Cloudinary uploads are
external and always succeed in the model; the resulting URL is an opaque
string.  bcrypt comparison is modelled as equality with the stored secret.
-/

/-- A media document (models the `Media` mongoose schema).  Fields that no
claim observes (tags, seo, metadata, counters, uploader) are omitted. -/
structure MediaRecord where
  id : Nat
  title : String
  description : String
  type : String
  url : String
  category : String
  isHeroImage : Bool
  isActive : Bool
  isFeatured : Bool
  updatedAt : Nat
  deriving DecidableEq, Repr

/-- JS `String.prototype.startsWith` (mimetype dispatch), embedded over
the character list so it evaluates. -/
def startsWithStr (s pre : String) : Bool :=
  pre.data.isPrefixOf s.data

/-- `Media.updateMany({}, { isHeroImage: false })`. -/
def clearAllHero (db : List MediaRecord) : List MediaRecord :=
  db.map (fun r => { r with isHeroImage := false })

/-- `Media.updateMany({ _id: { $ne: pid } }, { isHeroImage: false })`. -/
def clearOthersHero (pid : Nat) (db : List MediaRecord) : List MediaRecord :=
  db.map (fun r => if r.id == pid then r else { r with isHeroImage := false })

/-- `Media.findById(pid)`. -/
def findDoc (db : List MediaRecord) (pid : Nat) : Option MediaRecord :=
  db.find? (fun r => r.id == pid)

/-- mongoose `save()` on an already-loaded document: `updateOne` keyed on
`_id`, replacing the (first) stored record with that id; if the record has
vanished nothing is written. -/
def saveExisting (db : List MediaRecord) (m : MediaRecord) : List MediaRecord :=
  match db with
  | [] => []
  | r :: rs => if r.id == m.id then m :: rs else r :: saveExisting rs m

/-- Fresh identifier for a newly inserted document (models ObjectId
generation by the store: the new id differs from every stored id). -/
def freshId (db : List MediaRecord) : Nat :=
  (db.map (fun r => r.id)).foldr Nat.max 0 + 1

/-- Result of a media route handler: the store afterwards plus the HTTP
status sent. -/
structure MediaOut where
  db : List MediaRecord
  status : Nat
  deriving DecidableEq, Repr

/-- Request body for `POST /api/media` (routes/media.js).  `Option.none`
models an absent field; body values arrive as strings. -/
structure CreateReq where
  title : String
  description : String
  isHeroImage : Option String
  category : Option String
  fileMime : Option String
  url : Option String
  urlType : Option String
  deriving DecidableEq, Repr

/-- `let category = req.body.category || 'showreel'`. -/
def createCategory (req : CreateReq) : String :=
  match req.category with
  | some c => if c == "" then "showreel" else c
  | none => "showreel"

/-- `isHeroImage = req.body.isHeroImage === 'true'`, forced to `true` when
the category is `'hero-image'`. -/
def createHeroFlag (req : CreateReq) : Bool :=
  createCategory req == "hero-image" || req.isHeroImage == some "true"

/-- `POST /api/media` (routes/media.js).  Mirrors the handler order:
compute `isHeroImage` (with the `category === 'hero-image'` override),
validate that a hero file is an image, sweep all hero flags, then insert
via the file branch or the URL branch. -/
def createMedia (db : List MediaRecord) (req : CreateReq) (now : Nat) : MediaOut :=
  let category := createCategory req
  let isHero := createHeroFlag req
  match req.fileMime with
  | some mime =>
    if isHero && !(startsWithStr mime "image/") then
      ⟨db, 400⟩
    else
      let db1 := if isHero then clearAllHero db else db
      let m : MediaRecord :=
        { id := freshId db1, title := req.title, description := req.description
          type := if startsWithStr mime "video/" then "video" else "image"
          url := "cloudinary-url", category := category, isHeroImage := isHero
          isActive := true, isFeatured := false, updatedAt := now }
      ⟨db1 ++ [m], 201⟩
  | none =>
    let db1 := if isHero then clearAllHero db else db
    match req.url with
    | some u =>
      if isHero && !(req.urlType == some "image") then
        ⟨db1, 400⟩
      else
        let m : MediaRecord :=
          { id := freshId db1, title := req.title, description := req.description
            type := (req.urlType).getD "image"
            url := u, category := category, isHeroImage := isHero
            isActive := true, isFeatured := false, updatedAt := now }
        ⟨db1 ++ [m], 201⟩
    | none => ⟨db1, 400⟩

/-- Request body for `PUT /api/media/:id` (routes/media.js). -/
structure UpdateReq where
  title : Option String
  description : Option String
  category : Option String
  isHeroImage : Option String
  isActive : Option String
  isFeatured : Option String
  fileMime : Option String
  deriving DecidableEq, Repr

/-- `newCategory = req.body.category || media.category`. -/
def updCategory (media : MediaRecord) (req : UpdateReq) : String :=
  match req.category with
  | some c => if c == "" then media.category else c
  | none => media.category

/-- `newIsHeroImage = req.body.isHeroImage === 'true'`, forced to `true`
when the effective category is `'hero-image'`. -/
def updHeroFlag (media : MediaRecord) (req : UpdateReq) : Bool :=
  updCategory media req == "hero-image" || req.isHeroImage == some "true"

/-- Whether the media item is, or will become, an image. -/
def updIsImage (media : MediaRecord) (req : UpdateReq) : Bool :=
  match req.fileMime with
  | some mime => startsWithStr mime "image/"
  | none => media.type == "image"

/-- The in-memory document after the PUT handler's field assignments
(file replacement, truthy-guarded scalar fields, the unconditional
`media.isHeroImage = newIsHeroImage`, and the timestamp stamped on save). -/
def updApply (media : MediaRecord) (req : UpdateReq) (now : Nat) : MediaRecord :=
  let m1 := match req.fileMime with
    | some mime =>
      { media with
        type := if startsWithStr mime "video/" then "video" else "image"
        url := "cloudinary-url" }
    | none => media
  { m1 with
    title := match req.title with
      | some t => if t == "" then m1.title else t
      | none => m1.title
    description := (req.description).getD m1.description
    category := match req.category with
      | some c => if c == "" then m1.category else updCategory media req
      | none => m1.category
    isActive := match req.isActive with
      | some s => s == "true"
      | none => m1.isActive
    isFeatured := match req.isFeatured with
      | some s => s == "true"
      | none => m1.isFeatured
    isHeroImage := updHeroFlag media req
    updatedAt := now }

/-- `PUT /api/media/:id` (routes/media.js).  Note line 462: the handler
always writes `media.isHeroImage = newIsHeroImage`, whether or not the
request mentioned the flag. -/
def updateMedia (db : List MediaRecord) (pid : Nat) (req : UpdateReq) (now : Nat) :
    MediaOut :=
  match findDoc db pid with
  | none => ⟨db, 404⟩
  | some media =>
    if updHeroFlag media req && !(updIsImage media req) then
      ⟨db, 400⟩
    else
      let db1 := if updHeroFlag media req && updIsImage media req then
        clearOthersHero pid db else db
      ⟨saveExisting db1 (updApply media req now), 200⟩

/-- `POST /api/media/hero-image` (older media router): validate the id,
require an image, sweep every hero flag, then save the candidate with the
flag set. -/
def postHeroImage (db : List MediaRecord) (mediaId : Option Nat) (now : Nat) :
    MediaOut :=
  match mediaId with
  | none => ⟨db, 400⟩
  | some pid =>
    match findDoc db pid with
    | none => ⟨db, 404⟩
    | some media =>
      if media.type != "image" then
        ⟨db, 400⟩
      else
        let db1 := clearAllHero db
        ⟨saveExisting db1 { media with isHeroImage := true, updatedAt := now }, 200⟩

/-- `POST /api/media` in the older media router (file branch): a hero
request for a non-image is downgraded to `isHeroImage = false` instead of
being rejected, and no sweep happens. -/
def createMediaP0 (db : List MediaRecord) (title : String)
    (isHeroStr : Option String) (category : Option String) (mime : String)
    (now : Nat) : MediaOut :=
  let isHero0 := isHeroStr == some "true"
  let db1 := if isHero0 && startsWithStr mime "image/" then clearAllHero db else db
  let isHero := if isHero0 && !(startsWithStr mime "image/") then false else isHero0
  let m : MediaRecord :=
    { id := freshId db1, title := title, description := ""
      type := if startsWithStr mime "video/" then "video" else "image"
      url := "cloudinary-url", category := (category).getD "showreel"
      isHeroImage := isHero, isActive := true, isFeatured := false
      updatedAt := now }
  ⟨db1 ++ [m], 201⟩

/-- A record the hero read endpoint may return:
`{ isHeroImage: true, isActive: true, type: 'image' }`. -/
def isHeroCandidate (r : MediaRecord) : Bool :=
  r.isHeroImage && r.isActive && (r.type == "image")

/-- `findOne(...).sort({ updatedAt: -1 })`: the first record carrying the
largest `updatedAt`. -/
def pickLatest : List MediaRecord → Option MediaRecord
  | [] => none
  | r :: rs =>
    match pickLatest rs with
    | none => some r
    | some b => if b.updatedAt > r.updatedAt then some b else some r

/-- `GET /api/media/hero-image` (routes/media.js): the hero-flagged active
image most recently updated, if any. -/
def getHero (db : List MediaRecord) : Option MediaRecord :=
  pickLatest (db.filter isHeroCandidate)

/-- Number of records whose hero flag is set. -/
def heroCount (db : List MediaRecord) : Nat :=
  db.countP (fun r => r.isHeroImage)

/-- Stored ids are pairwise distinct (MongoDB `_id` uniqueness). -/
def idsNodup (db : List MediaRecord) : Prop :=
  (db.map (fun r => r.id)).Nodup

/-- One hero-designation operation, as the claims enumerate them. -/
inductive HeroOp where
  | create (req : CreateReq) (now : Nat)
  | update (pid : Nat) (req : UpdateReq) (now : Nat)
  | setHero (mediaId : Option Nat) (now : Nat)
  deriving DecidableEq, Repr

/-- The store after one operation (the HTTP status is dropped). -/
def applyOp (db : List MediaRecord) : HeroOp → List MediaRecord
  | .create req now => (createMedia db req now).db
  | .update pid req now => (updateMedia db pid req now).db
  | .setHero mid now => (postHeroImage db mid now).db

/-- Sequential execution of a list of operations. -/
def runOps (db : List MediaRecord) (ops : List HeroOp) : List MediaRecord :=
  ops.foldl applyOp db

/-- An administrator account (models the `Admin` mongoose schema).
`password` stands for the stored secret; the bcrypt hash is opaque, so the
model compares the candidate against it directly.  `lockUntil = none`
models the field being unset (`$unset`), and a loginAttempts of `0` models
both the stored `0` and the unset field read through the schema default. -/
structure AdminAccount where
  username : String
  email : String
  password : String
  role : String
  isActive : Bool
  loginAttempts : Nat
  lockUntil : Option Nat
  lastLogin : Option Nat
  deriving DecidableEq, Repr

/-- The `isLocked` virtual: `!!(this.lockUntil && this.lockUntil > Date.now())`. -/
def isLocked (a : AdminAccount) (now : Nat) : Bool :=
  match a.lockUntil with
  | some t => decide (now < t)
  | none => false

/-- `comparePassword`: `if (!candidatePassword) return false` then bcrypt
comparison, modelled as equality with the stored secret. -/
def comparePassword (a : AdminAccount) (candidate : String) : Bool :=
  if candidate == "" then false else candidate == a.password

/-- The unconditional part of `incLoginAttempts`: `$inc` the counter, and
`$set` a 2-hour lock when this failure is the 5th and no live lock exists. -/
def incStep (a : AdminAccount) (now : Nat) : AdminAccount :=
  if a.loginAttempts + 1 ≥ 5 && !(isLocked a now) then
    { a with loginAttempts := a.loginAttempts + 1
             lockUntil := some (now + 2 * 60 * 60 * 1000) }
  else
    { a with loginAttempts := a.loginAttempts + 1 }

/-- `incLoginAttempts`: a previously set lock that has expired
(`lockUntil < Date.now()`) restarts the counter at 1 and unsets the lock;
otherwise the counter is incremented (locking on the 5th failure). -/
def incLoginAttempts (a : AdminAccount) (now : Nat) : AdminAccount :=
  match a.lockUntil with
  | some t =>
    if t < now then { a with lockUntil := none, loginAttempts := 1 }
    else incStep a now
  | none => incStep a now

/-- `resetLoginAttempts`: `$unset` both guard fields (the counter reads
back as the schema default 0). -/
def resetLoginAttempts (a : AdminAccount) : AdminAccount :=
  { a with loginAttempts := 0, lockUntil := none }

/-- `updateLastLogin`. -/
def updateLastLogin (a : AdminAccount) (now : Nat) : AdminAccount :=
  { a with lastLogin := some now }

/-- JS whitespace for `.trim()` (the characters our inputs can contain). -/
def isJsSpace (c : Char) : Bool :=
  c == ' ' || c == '\t' || c == '\n' || c == '\r'

/-- `String.prototype.trim()`: strip whitespace from both ends. -/
def trimString (s : String) : String :=
  String.mk (((s.data.dropWhile isJsSpace).reverse.dropWhile isJsSpace).reverse)

/-- `String.prototype.toLowerCase()` (ASCII, which covers the schema's
username/email alphabet). -/
def lowerString (s : String) : String :=
  String.mk (s.data.map Char.toLower)

/-- The login lookup key: the validator trims the supplied identifier and
the route lowercases it. -/
def lookupKey (username : String) : String :=
  lowerString (trimString username)

/-- The `$or` filter of the login lookup: exact equality of the lowercased
input against the stored username or the stored email. -/
def lookupPred (username : String) (a : AdminAccount) : Bool :=
  a.username == lookupKey username || a.email == lookupKey username

/-- Replace the first list element satisfying `p` by its image under `f`
(an `updateOne` against the matched account). -/
def replaceFirst (p : α → Bool) (f : α → α) : List α → List α
  | [] => []
  | x :: xs => if p x then f x :: xs else x :: replaceFirst p f xs

/-- Outcome classification of `POST /api/auth/login`. -/
inductive LoginResult where
  | validationFailed
  | invalidCredentials
  | locked (minutesRemaining : Nat)
  | deactivated
  | success
  deriving DecidableEq, Repr

/-- Result of a login attempt: the account store afterwards, the
classified response, and whether a password comparison was performed. -/
structure LoginOut where
  db : List AdminAccount
  result : LoginResult
  comparedPassword : Bool
  deriving DecidableEq, Repr

/-- `POST /api/auth/login`: validation, lookup, lock check (before the
active check and before any password comparison), password comparison,
then either the failure transition or the reset-and-stamp success path.
The remaining-minutes figure is `Math.ceil((lockUntil - now) / 60000)`. -/
def login (db : List AdminAccount) (username password : String) (now : Nat) :
    LoginOut :=
  let u := trimString username
  if u.length < 3 ∨ password.length < 6 then
    ⟨db, .validationFailed, false⟩
  else
    match db.find? (lookupPred username) with
    | none => ⟨db, .invalidCredentials, false⟩
    | some admin =>
      if isLocked admin now then
        let t := (admin.lockUntil).getD 0
        ⟨db, .locked ((t - now + 60000 - 1) / 60000), false⟩
      else if !admin.isActive then
        ⟨db, .deactivated, false⟩
      else if !(comparePassword admin password) then
        ⟨replaceFirst (lookupPred username) (fun a => incLoginAttempts a now) db,
          .invalidCredentials, true⟩
      else
        ⟨replaceFirst (lookupPred username)
            (fun a => updateLastLogin (resetLoginAttempts a) now) db,
          .success, true⟩

/-! ### Concrete fixtures used by witnesses and counterexamples -/

/-- A persisted image record. -/
def exImg : MediaRecord :=
  { id := 1, title := "sunset", description := "", type := "image"
    url := "https://cdn/x.png", category := "showreel", isHeroImage := false
    isActive := true, isFeatured := false, updatedAt := 0 }

/-- A persisted video record. -/
def exVid : MediaRecord :=
  { id := 2, title := "reel", description := "", type := "video"
    url := "https://cdn/x.mp4", category := "showreel", isHeroImage := false
    isActive := true, isFeatured := false, updatedAt := 0 }

/-- A hero-designating upload request. -/
def exHeroCreate : CreateReq :=
  { title := "banner", description := "", isHeroImage := some "true"
    category := none, fileMime := some "image/png", url := none
    urlType := none }

/-- A hero-designating upload request whose file is a video. -/
def exHeroVideoCreate : CreateReq :=
  { title := "clip", description := "", isHeroImage := some "true"
    category := none, fileMime := some "video/mp4", url := none
    urlType := none }

/-- A PUT body that only asks for hero designation. -/
def heroTrueReq : UpdateReq :=
  { title := none, description := none, category := none
    isHeroImage := some "true", isActive := none, isFeatured := none
    fileMime := none }

/-- A PUT body that edits the title and does not mention the hero flag. -/
def plainEditReq : UpdateReq :=
  { title := some "new title", description := none, category := none
    isHeroImage := none, isActive := none, isFeatured := none
    fileMime := none }

/-- An operation sequence exercising all three designation routes. -/
def exOps : List HeroOp :=
  [ .create exHeroCreate 1, .create exHeroVideoCreate 2
  , .update 1 heroTrueReq 3, .setHero (some 1) 4, .setHero (some 1) 5 ]

/-- The admin account of end-to-end scenario B: four recorded failures. -/
def accB : AdminAccount :=
  { username := "admin_x", email := "adminx@pixelarts.com"
    password := "Correct1", role := "admin", isActive := true
    loginAttempts := 4, lockUntil := none, lastLogin := none }

/-- The account of scenario B after the locking (5th) failure at time
`now`: counter 5, locked for two hours. -/
def accB5 (now : Nat) : AdminAccount :=
  { accB with loginAttempts := 5, lockUntil := some (now + 2 * 60 * 60 * 1000) }

/-- An account whose stored username contains an uppercase letter. -/
def accUpper : AdminAccount :=
  { username := "Admin", email := "someone@pixelarts.com"
    password := "Passw0rd", role := "admin", isActive := true
    loginAttempts := 0, lockUntil := none, lastLogin := none }

/-- An account whose lock expiry equals the attempt time exactly. -/
def accEdge : AdminAccount :=
  { username := "admin_x", email := "adminx@pixelarts.com"
    password := "Correct1", role := "admin", isActive := true
    loginAttempts := 5, lockUntil := some 1000, lastLogin := none }

/-- An older hero-flagged active image. -/
def heroA : MediaRecord :=
  { id := 7, title := "a", description := "", type := "image"
    url := "https://cdn/a.png", category := "showreel", isHeroImage := true
    isActive := true, isFeatured := false, updatedAt := 4 }

/-- A newer hero-flagged active image. -/
def heroB : MediaRecord :=
  { id := 8, title := "b", description := "", type := "image"
    url := "https://cdn/b.png", category := "showreel", isHeroImage := true
    isActive := true, isFeatured := false, updatedAt := 9 }

/-! ### Store lemmas for the hero invariant -/

lemma heroCount_append (l1 l2 : List MediaRecord) :
    heroCount (l1 ++ l2) = heroCount l1 + heroCount l2 := by
  simp [heroCount, List.countP_append]

lemma heroCount_clearAll (db : List MediaRecord) :
    heroCount (clearAllHero db) = 0 := by
  simp [clearAllHero, heroCount, List.countP_eq_zero]

lemma ids_clearAll (db : List MediaRecord) :
    (clearAllHero db).map (fun r => r.id) = db.map (fun r => r.id) := by
  simp [clearAllHero]

lemma find?_cons_eq {α : Type} {p : α → Bool} (a : α) (l : List α) :
    List.find? p (a :: l) = if p a then some a else List.find? p l := by
  by_cases h : p a
  · rw [List.find?_cons_of_pos _ h, if_pos h]
  · rw [List.find?_cons_of_neg _ h, if_neg h]

lemma ids_clearOthers (pid : Nat) (db : List MediaRecord) :
    (clearOthersHero pid db).map (fun r => r.id) = db.map (fun r => r.id) := by
  induction db with
  | nil => rfl
  | cons r rs ih =>
    simp only [clearOthersHero, List.map_cons] at *
    rw [ih]
    congr 1
    split <;> rfl

lemma ids_saveExisting (db : List MediaRecord) (m : MediaRecord) :
    (saveExisting db m).map (fun r => r.id) = db.map (fun r => r.id) := by
  induction db with
  | nil => rfl
  | cons r rs ih =>
    by_cases h : r.id == m.id
    · have hid : r.id = m.id := eq_of_beq h
      simp [saveExisting, h, hid]
    · simp [saveExisting, h, ih]

lemma heroCount_saveExisting_le (db : List MediaRecord) (m : MediaRecord) :
    heroCount (saveExisting db m) ≤
      heroCount db + (if m.isHeroImage then 1 else 0) := by
  induction db with
  | nil => simp [saveExisting, heroCount]
  | cons r rs ih =>
    by_cases h : r.id == m.id
    · simp only [saveExisting, h, if_pos, heroCount, List.countP_cons] at *
      split <;> split <;> omega
    · simp only [saveExisting, h, Bool.false_eq_true, if_false, heroCount,
        List.countP_cons] at *
      omega

lemma heroCount_saveExisting_false (db : List MediaRecord) (m : MediaRecord)
    (hm : m.isHeroImage = false) :
    heroCount (saveExisting db m) ≤ heroCount db := by
  have := heroCount_saveExisting_le db m
  simpa [hm] using this

lemma heroCount_clearOthers_notmem (i : Nat) (db : List MediaRecord)
    (h : ∀ r ∈ db, r.id ≠ i) :
    heroCount (clearOthersHero i db) = 0 := by
  induction db with
  | nil => rfl
  | cons r rs ih =>
    have hr : r.id ≠ i := h r (by simp)
    have hb : (r.id == i) = false := by simpa using hr
    have ih2 := ih (fun s hs => h s (List.mem_cons_of_mem _ hs))
    simp only [clearOthersHero, List.map_cons, hb, Bool.false_eq_true, if_false,
      heroCount, List.countP_cons] at *
    simpa using ih2

lemma heroCount_clearOthers_save (i : Nat) (db : List MediaRecord)
    (m : MediaRecord) (hnd : (db.map (fun r => r.id)).Nodup) (hm : m.id = i) :
    heroCount (saveExisting (clearOthersHero i db) m) ≤ 1 := by
  induction db with
  | nil => simp [clearOthersHero, saveExisting, heroCount]
  | cons r rs ih =>
    simp only [List.map_cons, List.nodup_cons] at hnd
    by_cases h : r.id == i
    · have hri : r.id = i := eq_of_beq h
      have hmem : ∀ s ∈ rs, s.id ≠ i := by
        intro s hs hsi
        apply hnd.1
        rw [hri, ← hsi]
        exact List.mem_map_of_mem _ hs
      have hzero := heroCount_clearOthers_notmem i rs hmem
      have hbm : (r.id == m.id) = true := by simp [hri, hm]
      simp only [clearOthersHero, List.map_cons, h, if_pos, saveExisting, hbm,
        heroCount, List.countP_cons]
      simp only [clearOthersHero, heroCount] at hzero
      rw [hzero]
      split <;> omega
    · have hbm : (r.id == m.id) = false := by
        have hne : r.id ≠ i := by simpa using h
        simp [hm, hne]
      simp only [clearOthersHero, List.map_cons, h, Bool.false_eq_true, if_false,
        saveExisting, hbm, heroCount, List.countP_cons] at *
      have := ih hnd.2
      omega

lemma le_foldr_max (x : Nat) (l : List Nat) (h : x ∈ l) :
    x ≤ l.foldr Nat.max 0 := by
  induction l with
  | nil => cases h
  | cons a as ih =>
    rcases List.mem_cons.mp h with rfl | hmem
    · exact Nat.le_max_left _ _
    · exact le_trans (ih hmem) (Nat.le_max_right _ _)

lemma freshId_not_mem (db : List MediaRecord) :
    freshId db ∉ db.map (fun r => r.id) := by
  intro h
  have := le_foldr_max _ _ h
  simp only [freshId] at this
  omega

lemma saveExisting_cons (r : MediaRecord) (rs : List MediaRecord)
    (m : MediaRecord) :
    saveExisting (r :: rs) m =
      if r.id == m.id then m :: rs else r :: saveExisting rs m := rfl

lemma findDoc_saveExisting (db : List MediaRecord) (m r : MediaRecord)
    (pid : Nat) (hf : findDoc db pid = some r) (hm : m.id = pid) :
    findDoc (saveExisting db m) pid = some m := by
  induction db with
  | nil => simp [findDoc] at hf
  | cons a rs ih =>
    by_cases h : a.id == m.id
    · simp only [saveExisting, h, if_pos, findDoc]
      rw [find?_cons_eq]
      simp [hm]
    · have hap : (a.id == pid) = false := by
        have hne : a.id ≠ m.id := by simpa using h
        simp [← hm, hne]
      simp only [findDoc, find?_cons_eq, hap, Bool.false_eq_true, if_false] at hf
      simp only [saveExisting, h, Bool.false_eq_true, if_false, findDoc,
        find?_cons_eq, hap]
      exact ih hf

lemma nodup_append_fresh (db : List MediaRecord) (m : MediaRecord)
    (hnd : (db.map (fun r => r.id)).Nodup)
    (hm : m.id ∉ db.map (fun r => r.id)) :
    ((db ++ [m]).map (fun r => r.id)).Nodup := by
  rw [List.map_append]
  simp only [List.map_cons, List.map_nil]
  rw [List.nodup_append]
  refine ⟨hnd, List.nodup_singleton _, ?_⟩
  intro a ha hb
  simp only [List.mem_singleton] at hb
  exact hm (hb ▸ ha)

/-- Well-formedness of the media store: unique ids (MongoDB `_id`) and the
hero-singleton invariant. -/
def WF (db : List MediaRecord) : Prop :=
  idsNodup db ∧ heroCount db ≤ 1

lemma wf_clearAll (db : List MediaRecord) (h : idsNodup db) :
    WF (clearAllHero db) := by
  constructor
  · rw [idsNodup, ids_clearAll]
    exact h
  · rw [heroCount_clearAll]
    omega

lemma heroCount_singleton (m : MediaRecord) :
    heroCount [m] = if m.isHeroImage then 1 else 0 := by
  simp [heroCount, List.countP_cons]

lemma wf_append (db : List MediaRecord) (m : MediaRecord)
    (hnd : idsNodup db) (hid : m.id = freshId db)
    (hc : heroCount db + (if m.isHeroImage then 1 else 0) ≤ 1) :
    WF (db ++ [m]) := by
  constructor
  · exact nodup_append_fresh db m hnd (by rw [hid]; exact freshId_not_mem db)
  · rw [heroCount_append, heroCount_singleton]
    exact hc

lemma findDoc_id (db : List MediaRecord) (pid : Nat) (r : MediaRecord)
    (h : findDoc db pid = some r) : r.id = pid := by
  induction db with
  | nil => simp [findDoc] at h
  | cons a rs ih =>
    simp only [findDoc, find?_cons_eq] at h
    by_cases ha : a.id == pid
    · rw [if_pos ha] at h
      cases h
      exact eq_of_beq ha
    · rw [if_neg ha] at h
      exact ih h

lemma wf_save_clearOthers (db : List MediaRecord) (pid : Nat)
    (m : MediaRecord) (h : WF db) (hm : m.id = pid) :
    WF (saveExisting (clearOthersHero pid db) m) := by
  constructor
  · rw [idsNodup, ids_saveExisting, ids_clearOthers]
    exact h.1
  · exact heroCount_clearOthers_save pid db m h.1 hm

lemma wf_save_clearAll (db : List MediaRecord) (m : MediaRecord)
    (h : idsNodup db) :
    WF (saveExisting (clearAllHero db) m) := by
  constructor
  · rw [idsNodup, ids_saveExisting, ids_clearAll]
    exact h
  · have h1 := heroCount_saveExisting_le (clearAllHero db) m
    rw [heroCount_clearAll] at h1
    refine le_trans h1 ?_
    split <;> omega

lemma wf_save_false (db : List MediaRecord) (m : MediaRecord)
    (h : WF db) (hm : m.isHeroImage = false) :
    WF (saveExisting db m) := by
  constructor
  · rw [idsNodup, ids_saveExisting]
    exact h.1
  · exact le_trans (heroCount_saveExisting_false db m hm) h.2

lemma wf_createMedia (db : List MediaRecord) (req : CreateReq) (now : Nat)
    (h : WF db) : WF (createMedia db req now).db := by
  unfold createMedia
  cases hireq : req.fileMime with
  | some mime =>
    cases hh : createHeroFlag req with
    | true =>
      cases him : startsWithStr mime "image/" with
      | true =>
        simp only [hh, him, Bool.not_true, Bool.and_false, Bool.false_eq_true,
          if_false, if_true]
        exact wf_append (clearAllHero db) _ (wf_clearAll db h.1).1 rfl
          (by rw [heroCount_clearAll]; simp)
      | false =>
        simp only [hh, him, Bool.not_false, Bool.and_true, if_true]
        exact h
    | false =>
      simp only [hh, Bool.false_and, Bool.false_eq_true, if_false]
      exact wf_append db _ h.1 rfl (by simpa using h.2)
  | none =>
    cases hh : createHeroFlag req with
    | true =>
      simp only [hh, if_true]
      cases hu : req.url with
      | some u =>
        cases hty : req.urlType == some "image" with
        | true =>
          simp only [hty, Bool.not_true, Bool.and_false, Bool.false_eq_true,
            if_false]
          exact wf_append (clearAllHero db) _ (wf_clearAll db h.1).1 rfl
            (by rw [heroCount_clearAll]; simp)
        | false =>
          simp only [hty, Bool.not_false, Bool.and_true, if_true]
          exact wf_clearAll db h.1
      | none =>
        exact wf_clearAll db h.1
    | false =>
      simp only [hh, Bool.false_eq_true, if_false]
      cases hu : req.url with
      | some u =>
        simp only [Bool.false_and, Bool.false_eq_true, if_false]
        exact wf_append db _ h.1 rfl (by simpa using h.2)
      | none =>
        exact h

lemma updApply_id (media : MediaRecord) (req : UpdateReq) (now : Nat) :
    (updApply media req now).id = media.id := by
  unfold updApply
  cases req.fileMime <;> rfl

lemma updApply_flag (media : MediaRecord) (req : UpdateReq) (now : Nat) :
    (updApply media req now).isHeroImage = updHeroFlag media req := by
  unfold updApply
  cases req.fileMime <;> rfl

lemma wf_updateMedia (db : List MediaRecord) (pid : Nat) (req : UpdateReq)
    (now : Nat) (h : WF db) : WF (updateMedia db pid req now).db := by
  unfold updateMedia
  cases hfd : findDoc db pid with
  | none => exact h
  | some media =>
    have hid : media.id = pid := findDoc_id db pid media hfd
    cases hh : updHeroFlag media req with
    | true =>
      cases him : updIsImage media req with
      | true =>
        simp only [hh, him, Bool.not_true, Bool.and_false, Bool.false_eq_true,
          if_false, Bool.and_true, if_true]
        exact wf_save_clearOthers db pid _ h
          (by rw [updApply_id, hid])
      | false =>
        simp only [hh, him, Bool.not_false, Bool.and_true, if_true]
        exact h
    | false =>
      simp only [hh, Bool.false_and, Bool.false_eq_true, if_false]
      exact wf_save_false db _ h (by rw [updApply_flag, hh])

lemma wf_postHeroImage (db : List MediaRecord) (mediaId : Option Nat)
    (now : Nat) (h : WF db) : WF (postHeroImage db mediaId now).db := by
  unfold postHeroImage
  cases mediaId with
  | none => exact h
  | some pid =>
    cases hfd : findDoc db pid with
    | none =>
      simp only [hfd]
      exact h
    | some media =>
      simp only [hfd]
      cases hty : media.type != "image" with
      | true =>
        exact h
      | false =>
        exact wf_save_clearAll db _ h.1

lemma wf_applyOp (db : List MediaRecord) (op : HeroOp) (h : WF db) :
    WF (applyOp db op) := by
  cases op with
  | create req now => exact wf_createMedia db req now h
  | update pid req now => exact wf_updateMedia db pid req now h
  | setHero mid now => exact wf_postHeroImage db mid now h

lemma wf_runOps (db : List MediaRecord) (ops : List HeroOp) (h : WF db) :
    WF (runOps db ops) := by
  induction ops generalizing db with
  | nil => exact h
  | cons op rest ih => exact ih (applyOp db op) (wf_applyOp db op h)


lemma pickLatest_ne_none (r : MediaRecord) (rs : List MediaRecord) :
    pickLatest (r :: rs) ≠ none := by
  rw [pickLatest]
  cases hp : pickLatest rs with
  | none => simp
  | some b =>
    show (if b.updatedAt > r.updatedAt then some b else some r) ≠ none
    split <;> simp

lemma pickLatest_mem (l : List MediaRecord) (c : MediaRecord)
    (h : pickLatest l = some c) : c ∈ l := by
  induction l generalizing c with
  | nil => simp [pickLatest] at h
  | cons r rs ih =>
    rw [pickLatest] at h
    cases hp : pickLatest rs with
    | none =>
      simp only [hp] at h
      cases h
      simp
    | some b =>
      simp only [hp] at h
      by_cases hgt : b.updatedAt > r.updatedAt
      · rw [if_pos hgt] at h
        cases h
        exact List.mem_cons_of_mem _ (ih _ hp)
      · rw [if_neg hgt] at h
        cases h
        simp

lemma pickLatest_max (l : List MediaRecord) (c : MediaRecord)
    (h : pickLatest l = some c) : ∀ r ∈ l, r.updatedAt ≤ c.updatedAt := by
  induction l generalizing c with
  | nil => simp [pickLatest] at h
  | cons r rs ih =>
    rw [pickLatest] at h
    intro s hs
    rcases List.mem_cons.mp hs with rfl | hmem
    · cases hp : pickLatest rs with
      | none =>
        simp only [hp] at h
        cases h
        exact le_refl _
      | some b =>
        simp only [hp] at h
        by_cases hgt : b.updatedAt > s.updatedAt
        · rw [if_pos hgt] at h
          cases h
          omega
        · rw [if_neg hgt] at h
          cases h
          exact le_refl _
    · cases hp : pickLatest rs with
      | none =>
        exfalso
        cases rs with
        | nil => simp at hmem
        | cons a as => exact pickLatest_ne_none a as hp
      | some b =>
        simp only [hp] at h
        by_cases hgt : b.updatedAt > r.updatedAt
        · rw [if_pos hgt] at h
          cases h
          exact ih _ hp s hmem
        · rw [if_neg hgt] at h
          cases h
          have := ih _ hp s hmem
          omega

/-! ### Claims -/

/-- C1: for every sequence of hero-designation operations (create-with-hero,
update-with-hero, POST hero-image) executed sequentially from a well-formed
store, after each operation completes the number of media records whose
hero flag is true is 0 or 1. -/
theorem hero_uniqueness_sequences (db0 : List MediaRecord) (ops : List HeroOp)
    (hnd : idsNodup db0) (hc : heroCount db0 ≤ 1) :
    heroCount (runOps db0 ops) ≤ 1 ∧
      ∀ pre suf, ops = pre ++ suf → heroCount (runOps db0 pre) ≤ 1 :=
  ⟨(wf_runOps db0 ops ⟨hnd, hc⟩).2,
    fun pre _ _ => (wf_runOps db0 pre ⟨hnd, hc⟩).2⟩

theorem hero_uniqueness_sequences_witness :
    heroCount (runOps [exImg, exVid] exOps) ≤ 1 ∧
      ∀ pre suf, exOps = pre ++ suf →
        heroCount (runOps [exImg, exVid] pre) ≤ 1 :=
  hero_uniqueness_sequences [exImg, exVid] exOps (by unfold idsNodup; decide)
    (by decide)

/-- C2: for every account with failure counter 4 (and no lock present), one
more failed attempt locks the account until `now + 2h`, and any further
login attempt resolving to that account before the expiry is rejected as
locked, leaving the store untouched and performing no password
comparison. -/
theorem lockout_threshold (a : AdminAccount) (now : Nat)
    (h4 : a.loginAttempts = 4) (hnl : a.lockUntil = none)
    (db : List AdminAccount) (u p : String) (now2 : Nat)
    (hv1 : 3 ≤ (trimString u).length) (hv2 : 6 ≤ p.length)
    (hfind : db.find? (lookupPred u) = some (incLoginAttempts a now))
    (hbefore : now2 < now + 2 * 60 * 60 * 1000) :
    (incLoginAttempts a now).lockUntil = some (now + 2 * 60 * 60 * 1000) ∧
      (login db u p now2).db = db ∧
      (login db u p now2).comparedPassword = false ∧
      ∃ mins, (login db u p now2).result = .locked mins := by
  have ha2 : incLoginAttempts a now =
      { a with
        loginAttempts := 5
        lockUntil := some (now + 2 * 60 * 60 * 1000) } := by
    simp [incLoginAttempts, hnl, incStep, isLocked, h4]
  have hd : (isLocked
      { a with
        loginAttempts := 5
        lockUntil := some (now + 2 * 60 * 60 * 1000) } now2) = true := by
    simp [isLocked]
    exact hbefore
  have hrun : login db u p now2 =
      ⟨db, .locked ((now + 2 * 60 * 60 * 1000 - now2 + 60000 - 1) / 60000),
        false⟩ := by
    unfold login
    rw [if_neg (by omega)]
    simp only [hfind, ha2, hd, if_true, Option.getD_some]
  refine ⟨by rw [ha2], by rw [hrun], by rw [hrun], ?_⟩
  exact ⟨_, by rw [hrun]⟩

theorem lockout_threshold_witness :
    (incLoginAttempts accB 0).lockUntil = some (0 + 2 * 60 * 60 * 1000) ∧
      (login [incLoginAttempts accB 0] "admin_x" "Whatever1" 60000).db =
        [incLoginAttempts accB 0] ∧
      (login [incLoginAttempts accB 0] "admin_x" "Whatever1"
        60000).comparedPassword = false ∧
      ∃ mins, (login [incLoginAttempts accB 0] "admin_x" "Whatever1"
        60000).result = .locked mins :=
  lockout_threshold accB 0 rfl rfl [incLoginAttempts accB 0] "admin_x"
    "Whatever1" 60000 (by decide) (by decide) (by decide) (by decide)

/-- C3 counterexample: in routes/media.js, a hero-designating upload whose
file is a video is rejected with status 400 — the operation fails rather
than succeeding with a downgraded flag. -/
theorem hero_downgrade_counterexample :
    (createMedia [exImg] exHeroVideoCreate 0).status = 400 ∧
    (createMedia [exImg] exHeroVideoCreate 0).db = [exImg] ∧
    ¬ (createMedia [exImg] exHeroVideoCreate 0).status = 201 := by decide

/-- C3 amended: a hero-designation create for a non-image candidate is
rejected with 400 by the routes/media.js handler (store untouched), while
the older router's create handler downgrades the flag to false and
succeeds; in both variants the new record's hero flag is never true. -/
theorem hero_downgrade_amended (db : List MediaRecord) (req : CreateReq)
    (title : String) (cat : Option String) (mime : String) (now : Nat)
    (hreq : req.isHeroImage = some "true") (hfile : req.fileMime = some mime)
    (hmime : startsWithStr mime "image/" = false) :
    (createMedia db req now).status = 400 ∧
    (createMedia db req now).db = db ∧
    (createMediaP0 db title (some "true") cat mime now).status = 201 ∧
    ∃ m, (createMediaP0 db title (some "true") cat mime now).db = db ++ [m] ∧
      m.isHeroImage = false := by
  have hflag : createHeroFlag req = true := by
    simp [createHeroFlag, hreq]
  have hcm : createMedia db req now = ⟨db, 400⟩ := by
    unfold createMedia
    simp only [hfile, hflag, hmime, Bool.not_false, Bool.and_true, if_true]
  have hp0 : createMediaP0 db title (some "true") cat mime now =
      ⟨db ++ [{ id := freshId db, title := title, description := ""
                type := if startsWithStr mime "video/" then "video" else "image"
                url := "cloudinary-url", category := (cat).getD "showreel"
                isHeroImage := false, isActive := true, isFeatured := false
                updatedAt := now }], 201⟩ := by
    unfold createMediaP0
    simp only [hmime, Bool.and_false, Bool.false_eq_true, if_false,
      Bool.not_false, Bool.and_true, if_true]
    simp
  refine ⟨by rw [hcm], by rw [hcm], by rw [hp0], ?_⟩
  exact ⟨_, by rw [hp0], rfl⟩

theorem hero_downgrade_amended_witness :
    (createMedia [exImg] exHeroVideoCreate 5).status = 400 ∧
    (createMedia [exImg] exHeroVideoCreate 5).db = [exImg] ∧
    (createMediaP0 [exImg] "clip" (some "true") none "video/mp4" 5).status = 201 ∧
    ∃ m, (createMediaP0 [exImg] "clip" (some "true") none "video/mp4" 5).db =
        [exImg] ++ [m] ∧ m.isHeroImage = false :=
  hero_downgrade_amended [exImg] exHeroVideoCreate "clip" none "video/mp4" 5
    (by decide) (by decide) (by decide)

/-- C4 counterexample: for a lock expiring exactly at the attempt time
(`t = now`, which satisfies the claim's `t ≤ now`), the account is treated
as unlocked but a recorded failure yields counter 6 and a fresh 2-hour
lock, not counter 1 with the lock removed. -/
theorem lazy_expiry_counterexample :
    accEdge.lockUntil = some 1000 ∧ (1000 : Nat) ≤ 1000 ∧
    isLocked accEdge 1000 = false ∧
    (incLoginAttempts accEdge 1000).loginAttempts = 6 ∧
    (incLoginAttempts accEdge 1000).lockUntil =
      some (1000 + 2 * 60 * 60 * 1000) ∧
    ¬ ((incLoginAttempts accEdge 1000).loginAttempts = 1 ∧
      (incLoginAttempts accEdge 1000).lockUntil = none) := by decide

/-- C4 amended: a lock-expiry `t ≤ now` makes the account count as
unlocked; when the expiry is strictly past (`t < now`), a recorded failure
restarts the counter at exactly 1 and removes the lock field.  (At
`t = now` exactly the failure instead increments the old counter.) -/
theorem lazy_expiry_amended (a : AdminAccount) (t now : Nat)
    (hl : a.lockUntil = some t) (hle : t ≤ now) :
    isLocked a now = false ∧
    (t < now →
      incLoginAttempts a now =
        { a with loginAttempts := 1, lockUntil := none }) := by
  constructor
  · simp [isLocked, hl]
    omega
  · intro hlt
    simp [incLoginAttempts, hl, hlt]

theorem lazy_expiry_amended_witness :
    isLocked accEdge 1500 = false ∧
    (1000 < 1500 →
      incLoginAttempts accEdge 1500 =
        { accEdge with loginAttempts := 1, lockUntil := none }) :=
  lazy_expiry_amended accEdge 1000 1500 rfl (by decide)

/-- C5 counterexample: the locking (5th) failed attempt stores counter 5,
not the pre-lock value 4 claimed by scenario B — the `$inc` and the
`$set lockUntil` land in the same update. -/
theorem scenarioB_counterexample :
    accB.loginAttempts = 4 ∧
    (login [accB] "admin_x" "WrongPass1" 0).db.head? = some (accB5 0) ∧
    (accB5 0).loginAttempts = 5 ∧
    ¬ ((login [accB] "admin_x" "WrongPass1" 0).db.head?.map
        (fun x => x.loginAttempts) = some 4) := by decide

/-- C5 amended: from four prior failures, one more failed login stores
counter 5 and a 2-hour lock; a correct-password attempt one minute later is
rejected with the locked message (119 minutes remaining), leaves the store
— hence the counter and the lock — unchanged, and performs no password
comparison. -/
theorem scenarioB_amended (now : Nat) :
    (login [accB] "admin_x" "WrongPass1" now).result = .invalidCredentials ∧
    (login [accB] "admin_x" "WrongPass1" now).db = [accB5 now] ∧
    (accB5 now).loginAttempts = 5 ∧
    (accB5 now).lockUntil = some (now + 2 * 60 * 60 * 1000) ∧
    (login (login [accB] "admin_x" "WrongPass1" now).db "admin_x" "Correct1"
        (now + 60000)).result = .locked 119 ∧
    (login (login [accB] "admin_x" "WrongPass1" now).db "admin_x" "Correct1"
        (now + 60000)).db = (login [accB] "admin_x" "WrongPass1" now).db ∧
    (login (login [accB] "admin_x" "WrongPass1" now).db "admin_x" "Correct1"
        (now + 60000)).comparedPassword = false := by
  have hrun1 : login [accB] "admin_x" "WrongPass1" now =
      ⟨[accB5 now], .invalidCredentials, true⟩ := by
    unfold login
    rw [if_neg (by decide)]
    have hfind1 : List.find? (lookupPred "admin_x") [accB] = some accB := by
      decide
    simp only [hfind1]
    rw [if_neg (by simp [isLocked, accB])]
    rw [if_neg (by decide)]
    rw [if_pos (by decide)]
    simp only [replaceFirst]
    rw [if_pos (by decide)]
    have hinc : incLoginAttempts accB now = accB5 now := by
      simp [incLoginAttempts, incStep, isLocked, accB, accB5]
    rw [hinc]
  have hlock2 : isLocked (accB5 now) (now + 60000) = true := by
    simp [isLocked, accB5]
  have hrun2 : login [accB5 now] "admin_x" "Correct1" (now + 60000) =
      ⟨[accB5 now], .locked 119, false⟩ := by
    unfold login
    rw [if_neg (by decide)]
    have hfind2 : List.find? (lookupPred "admin_x") [accB5 now] =
        some (accB5 now) := by
      rw [find?_cons_eq,
        if_pos (show lookupPred "admin_x" (accB5 now) = true from rfl)]
    simp only [hfind2, hlock2, if_true]
    have hget : (accB5 now).lockUntil = some (now + 2 * 60 * 60 * 1000) := rfl
    rw [hget]
    have harith : ((some (now + 2 * 60 * 60 * 1000)).getD 0 - (now + 60000)
        + 60000 - 1) / 60000 = 119 := by
      rw [Option.getD_some]
      have h1 : now + 2 * 60 * 60 * 1000 - (now + 60000) + 60000 - 1 =
          7199999 := by omega
      rw [h1]
    rw [harith]
  rw [hrun1, hrun2]
  exact ⟨rfl, rfl, rfl, rfl, rfl, rfl, rfl⟩

theorem scenarioB_amended_witness :
    (login [accB] "admin_x" "WrongPass1" 0).result = .invalidCredentials ∧
    (login [accB] "admin_x" "WrongPass1" 0).db = [accB5 0] ∧
    (accB5 0).loginAttempts = 5 ∧
    (accB5 0).lockUntil = some (0 + 2 * 60 * 60 * 1000) ∧
    (login (login [accB] "admin_x" "WrongPass1" 0).db "admin_x" "Correct1"
        (0 + 60000)).result = .locked 119 ∧
    (login (login [accB] "admin_x" "WrongPass1" 0).db "admin_x" "Correct1"
        (0 + 60000)).db = (login [accB] "admin_x" "WrongPass1" 0).db ∧
    (login (login [accB] "admin_x" "WrongPass1" 0).db "admin_x" "Correct1"
        (0 + 60000)).comparedPassword = false :=
  scenarioB_amended 0

/-- C6 counterexample: an existing active account whose stored username is
"Admin" is not found even when the exact stored username and correct
password are supplied — the lookup lowercases only the input and compares
it verbatim against the mixed-case stored username. -/
theorem login_lookup_counterexample :
    accUpper.username = "Admin" ∧
    accUpper.password = "Passw0rd" ∧
    accUpper.isActive = true ∧
    (login [accUpper] "Admin" "Passw0rd" 0).result = .invalidCredentials ∧
    (login [accUpper] "Admin" "Passw0rd" 0).db = [accUpper] := by decide

/-- C6 amended: the login lookup matches an account exactly when the
trimmed, lowercased supplied identifier equals the stored username or the
stored email verbatim.  Emails are stored lowercased (schema
`lowercase: true`), so email matching is case-insensitive on both sides;
usernames are stored as entered, so matching is case-insensitive only in
the supplied value. -/
theorem login_lookup_amended (u : String) (a : AdminAccount) (e : String)
    (hemail : a.email = lowerString e) :
    (lookupPred u a = true ↔
      (a.username = lookupKey u ∨ a.email = lookupKey u)) ∧
    lookupKey u = lowerString (trimString u) ∧
    (lowerString (trimString u) = lowerString e → lookupPred u a = true) := by
  refine ⟨by simp [lookupPred], rfl, ?_⟩
  intro h
  simp [lookupPred, lookupKey, hemail, h]

theorem login_lookup_amended_witness :
    (lookupPred "ADMINX@PixelArts.com " accB = true ↔
      (accB.username = lookupKey "ADMINX@PixelArts.com " ∨
        accB.email = lookupKey "ADMINX@PixelArts.com ")) ∧
    lookupKey "ADMINX@PixelArts.com " =
      lowerString (trimString "ADMINX@PixelArts.com ") ∧
    (lowerString (trimString "ADMINX@PixelArts.com ") =
        lowerString "ADMINX@pixelarts.com" →
      lookupPred "ADMINX@PixelArts.com " accB = true) :=
  login_lookup_amended "ADMINX@PixelArts.com " accB "ADMINX@pixelarts.com"
    (by decide)

/-- C7: for an account with counter N, 0 < N < 5, not locked at the attempt
time, a successful login classifies as success, rewrites the account via
reset-then-stamp, and the rewritten account has counter 0, no lock field,
and the login timestamp recorded. -/
theorem guard_reset (db : List AdminAccount) (u p : String) (now : Nat)
    (a : AdminAccount)
    (hv1 : 3 ≤ (trimString u).length) (hv2 : 6 ≤ p.length)
    (hfind : db.find? (lookupPred u) = some a)
    (_hN1 : 0 < a.loginAttempts) (_hN2 : a.loginAttempts < 5)
    (hnl : isLocked a now = false)
    (hact : a.isActive = true)
    (hcmp : comparePassword a p = true) :
    (login db u p now).result = .success ∧
    (login db u p now).db = replaceFirst (lookupPred u)
        (fun x => updateLastLogin (resetLoginAttempts x) now) db ∧
    (updateLastLogin (resetLoginAttempts a) now).loginAttempts = 0 ∧
    (updateLastLogin (resetLoginAttempts a) now).lockUntil = none ∧
    (updateLastLogin (resetLoginAttempts a) now).lastLogin = some now := by
  have hrun : login db u p now =
      ⟨replaceFirst (lookupPred u)
          (fun x => updateLastLogin (resetLoginAttempts x) now) db,
        .success, true⟩ := by
    unfold login
    rw [if_neg (by omega)]
    simp only [hfind, hnl, hact, hcmp, Bool.not_true, Bool.false_eq_true,
      if_false]
  exact ⟨by rw [hrun], by rw [hrun], rfl, rfl, rfl⟩

theorem guard_reset_witness :
    (login [accB] "admin_x" "Correct1" 77).result = .success ∧
    (login [accB] "admin_x" "Correct1" 77).db = replaceFirst
        (lookupPred "admin_x")
        (fun x => updateLastLogin (resetLoginAttempts x) 77) [accB] ∧
    (updateLastLogin (resetLoginAttempts accB) 77).loginAttempts = 0 ∧
    (updateLastLogin (resetLoginAttempts accB) 77).lockUntil = none ∧
    (updateLastLogin (resetLoginAttempts accB) 77).lastLogin = some 77 :=
  guard_reset [accB] "admin_x" "Correct1" 77 accB (by decide) (by decide)
    (by decide) (by decide) (by decide) (by decide) (by decide) (by decide)

/-- C9: the hero read endpoint returns none exactly when no active
hero-flagged image exists; whenever at least one such candidate exists —
in particular whenever persistence holds more than one hero-flagged
record — it returns some record rather than none or an error, and any
returned record is an active hero-flagged image from the store whose
`updatedAt` is maximal among all such records (so with several candidates
it deterministically serves the most recently updated one); a unique
candidate is returned itself. -/
theorem getHero_spec (db : List MediaRecord) :
    (db.filter isHeroCandidate = [] → getHero db = none) ∧
    (db.filter isHeroCandidate ≠ [] → ∃ c, getHero db = some c) ∧
    (∀ c, getHero db = some c →
      isHeroCandidate c = true ∧ c ∈ db ∧
      ∀ r ∈ db, isHeroCandidate r = true → r.updatedAt ≤ c.updatedAt) ∧
    (∀ c, db.filter isHeroCandidate = [c] → getHero db = some c) := by
  refine ⟨?_, ?_, ?_, ?_⟩
  · intro h
    rw [getHero, h]
    rfl
  · intro h
    rw [getHero]
    cases hf : db.filter isHeroCandidate with
    | nil => exact absurd hf h
    | cons a as =>
      cases hp : pickLatest (a :: as) with
      | none => exact absurd hp (pickLatest_ne_none a as)
      | some c => exact ⟨c, rfl⟩
  · intro c hc
    rw [getHero] at hc
    have hmem := pickLatest_mem _ _ hc
    have hfm := List.mem_filter.mp hmem
    refine ⟨hfm.2, hfm.1, ?_⟩
    intro r hr hcand
    exact pickLatest_max _ _ hc r (List.mem_filter.mpr ⟨hr, hcand⟩)
  · intro c hfilter
    rw [getHero, hfilter]
    rfl

theorem getHero_spec_witness :
    (∃ c, getHero [exVid, heroA, heroB] = some c) ∧
    (isHeroCandidate heroB = true ∧ heroB ∈ [exVid, heroA, heroB] ∧
      ∀ r ∈ [exVid, heroA, heroB], isHeroCandidate r = true →
        r.updatedAt ≤ heroB.updatedAt) :=
  ⟨(getHero_spec [exVid, heroA, heroB]).2.1 (by decide),
    (getHero_spec [exVid, heroA, heroB]).2.2.1 heroB (by decide)⟩

/-- C10: a successful PUT whose body neither sets `isHeroImage` to the
string "true" nor carries (or inherits) the category `'hero-image'` always
stores the record with hero flag false — an ordinary edit of the current
hero record silently un-designates it. -/
theorem update_unsets_hero (db : List MediaRecord) (pid : Nat)
    (req : UpdateReq) (now : Nat) (m : MediaRecord)
    (hfd : findDoc db pid = some m)
    (hhero : req.isHeroImage ≠ some "true")
    (hcat1 : req.category ≠ some "hero-image")
    (hcat2 : m.category ≠ "hero-image") :
    (updateMedia db pid req now).status = 200 ∧
    findDoc (updateMedia db pid req now).db pid =
      some (updApply m req now) ∧
    (updApply m req now).isHeroImage = false := by
  have h1 : (updCategory m req == "hero-image") = false := by
    rw [updCategory]
    cases hc : req.category with
    | none => simpa using hcat2
    | some c =>
      show ((if (c == "") = true then m.category else c) == "hero-image") =
        false
      by_cases hce : c == ""
      · rw [if_pos hce]
        simpa using hcat2
      · rw [if_neg hce]
        have hcne : c ≠ "hero-image" := by
          intro h
          exact hcat1 (by rw [hc, h])
        simpa using hcne
  have h2 : (req.isHeroImage == some "true") = false := by
    simpa using hhero
  have hflag : updHeroFlag m req = false := by
    rw [updHeroFlag, h1, h2]
    rfl
  have hrun : updateMedia db pid req now =
      ⟨saveExisting db (updApply m req now), 200⟩ := by
    unfold updateMedia
    simp only [hfd, hflag, Bool.false_and, Bool.false_eq_true, if_false]
  refine ⟨by rw [hrun], ?_, by rw [updApply_flag, hflag]⟩
  rw [hrun]
  exact findDoc_saveExisting db (updApply m req now) m pid hfd
    (by rw [updApply_id]; exact findDoc_id db pid m hfd)

theorem update_unsets_hero_witness :
    (updateMedia [heroA] 7 plainEditReq 5).status = 200 ∧
    findDoc (updateMedia [heroA] 7 plainEditReq 5).db 7 =
      some (updApply heroA plainEditReq 5) ∧
    (updApply heroA plainEditReq 5).isHeroImage = false :=
  update_unsets_hero [heroA] 7 plainEditReq 5 heroA (by decide) (by decide)
    (by decide) (by decide)
